import Mathlib

set_option maxRecDepth 4000

/-!
Shallow embedding of the score-adjustment core of the repository
(`src/lib/calculator.ts`, with one small helper from `src/index.ts`).

Modelling conventions:
* JavaScript numbers are embedded as rationals (`ℚ`); the arithmetic the
  program performs on scores and percentiles is expressed exactly over `ℚ`.
  The IEEE value `NaN` (which arises in the source only on out-of-bounds
  array reads, i.e. `undefined` flowing into arithmetic) is embedded as
  `Option.none`: a function whose source can produce `NaN`/`undefined`
  returns `Option ℚ` here.
* A JS `Map` built by insertion is embedded as an association list in
  insertion order, and `Map.get`/`Map.has` as `find?` over that list.
* JS truthiness on `startYear : number | null` (`if (anime.startYear)`)
  is embedded by `truthyYear`: both `null` and `0` are falsy.
-/

/-- The `CONFIG.PERCENTILE_CAPS` record from `calculator.ts`. -/
structure PercentileCaps where
  p95 : ℚ
  p99 : ℚ
  p100 : ℚ
deriving Repr, DecidableEq

/-- The `CONFIG` record from `calculator.ts`. -/
structure Config where
  MIN_SCORING_USERS : Int
  BASELINE_START_YEAR : Int
  BASELINE_END_YEAR : Int
  PERCENTILE_CAPS : PercentileCaps
deriving Repr, DecidableEq

/-- `CONFIG` constant of `calculator.ts`: caps 95 ↦ 8.29, 99 ↦ 8.69, 100 ↦ 8.88. -/
def CONFIG : Config :=
  { MIN_SCORING_USERS := 25000
    BASELINE_START_YEAR := 2012
    BASELINE_END_YEAR := 2014
    PERCENTILE_CAPS := { p95 := 829/100, p99 := 869/100, p100 := 888/100 } }

/-- The `AnimeData` input record of `calculator.ts`. -/
structure AnimeData where
  id : Int
  title : String
  mean : ℚ
  rank : Int
  startYear : Option Int
  numScoringUsers : Int
deriving Repr, DecidableEq

/-- The `AdjustedAnimeData` output record of `calculator.ts`
(`AnimeData` plus the three derived fields). -/
structure AdjustedAnimeData extends AnimeData where
  adjustedScore : ℚ
  adjustedRank : Nat
  scoreDifference : ℚ
deriving Repr, DecidableEq

/-- JS truthiness of the `startYear` field: `null` and `0` are falsy,
any other year is its own truthy value. -/
def truthyYear (a : AnimeData) : Option Int :=
  match a.startYear with
  | some y => if y = 0 then none else some y
  | none => none

/-- `calculateMedian` from `calculator.ts`: sorts a copy ascending and takes
the middle element (odd length) or the mean of the two central elements
(even length).  On the empty list the source reads `sorted[-1]`/`sorted[0]`
(`undefined`) and produces `NaN`; embedded as `none`. -/
def calculateMedian (scores : List ℚ) : Option ℚ :=
  let sorted := scores.mergeSort (fun a b => decide (a ≤ b))
  let mid := sorted.length / 2
  if sorted.length % 2 = 0 then
    match sorted[mid - 1]?, sorted[mid]? with
    | some a, some b => some ((a + b) / 2)
    | _, _ => none
  else sorted[mid]?

/-- The early-exit counting loop of `calculatePercentile`: walks the list
from the front, counting while elements are `< score`, and stops at the
first element `≥ score`. -/
def countLessScan (score : ℚ) : List ℚ → Nat
  | [] => 0
  | s :: rest => if s < score then countLessScan score rest + 1 else 0

/-- `calculatePercentile` from `calculator.ts`:
`(count / sortedScores.length) * 100` where `count` is produced by the
early-exit scan.  (On the empty list the source yields `0/0 = NaN`; in `ℚ`
division by zero gives `0`; all claims about this function assume a
non-empty input.) -/
def calculatePercentile (sortedScores : List ℚ) (score : ℚ) : ℚ :=
  ((countLessScan score sortedScores : ℚ) / (sortedScores.length : ℚ)) * 100

/-- `getScoreAtPercentile` from `calculator.ts`:
`index = Math.floor((percentile / 100) * sortedScores.length)` and the
result is `sortedScores[Math.min(index, sortedScores.length - 1)]`.
A negative index or an empty array gives `undefined` in the source,
embedded as `none`.  There is no clamping of `percentile` and no
interpolation. -/
def getScoreAtPercentile (sortedScores : List ℚ) (percentile : ℚ) : Option ℚ :=
  let index : Int := Int.floor (percentile / 100 * (sortedScores.length : ℚ))
  let i : Int := min index ((sortedScores.length : Int) - 1)
  if 0 ≤ i then sortedScores[i.toNat]? else none

/-- `estimatePercentile` from `calculator.ts`: the piecewise-linear
heuristic used for items whose release year lacks full statistics. -/
def estimatePercentile (score : ℚ) : ℚ :=
  if score ≥ 85/10 then 85 + ((score - 85/10) / (15/10)) * 15
  else if score ≥ 8 then 70 + ((score - 8) / (5/10)) * 15
  else if score ≥ 75/10 then 50 + ((score - 75/10) / (5/10)) * 20
  else if score ≥ 7 then 30 + ((score - 7) / (5/10)) * 20
  else if score ≥ 65/10 then 15 + ((score - 65/10) / (5/10)) * 15
  else (score / (65/10)) * 15

/-- One step of the grouping loop of `buildYearStats`: append `a` to the
bucket of key `y`, creating the bucket at the end on first occurrence
(JS `Map` insertion order). -/
def insertAnime (m : List (Int × List AnimeData)) (y : Int) (a : AnimeData) :
    List (Int × List AnimeData) :=
  match m with
  | [] => [(y, [a])]
  | (k, v) :: rest =>
    if k = y then (k, v ++ [a]) :: rest else (k, v) :: insertAnime rest y a

/-- The `animeByYear` map of `buildYearStats`: items grouped by truthy
`startYear`, in insertion order; items with falsy `startYear` skipped. -/
def animeByYear (animeList : List AnimeData) : List (Int × List AnimeData) :=
  animeList.foldl
    (fun m a =>
      match truthyYear a with
      | some y => insertAnime m y a
      | none => m)
    []

/-- Lookup of a bucket in the grouping map (JS `Map.get` on
`animeByYear`). -/
def groupLookup (m : List (Int × List AnimeData)) (y : Int) : Option (List AnimeData) :=
  (m.find? (fun p => decide (p.1 = y))).map (fun p => p.2)

/-- The `YearStats` record of `calculator.ts` (`medianScore` is `Option`
because `calculateMedian` is). -/
structure YearStats where
  year : Int
  scores : List ℚ
  medianScore : Option ℚ
  count : Nat
deriving Repr, DecidableEq

/-- The per-year stats computation of `buildYearStats`: ascending-sorted
member scores, median, count. -/
def mkYearStats (year : Int) (yearAnime : List AnimeData) : YearStats :=
  let scores := (yearAnime.map (fun a => a.mean)).mergeSort (fun a b => decide (a ≤ b))
  { year := year, scores := scores, medianScore := calculateMedian scores
    count := scores.length }

/-- `buildYearStats` from `calculator.ts`, embedded as the association list
of the resulting `Map` in insertion order: an entry for each grouped year
with at least 10 members. -/
def statsByYear (animeList : List AnimeData) : List (Int × YearStats) :=
  (animeByYear animeList).filterMap
    (fun p => if 10 ≤ p.2.length then some (p.1, mkYearStats p.1 p.2) else none)

/-- `Map.get` (and, via `isSome`, `Map.has`) on the result of
`buildYearStats`. -/
def statsLookup (animeList : List AnimeData) (year : Int) : Option YearStats :=
  ((statsByYear animeList).find? (fun p => decide (p.1 = year))).map (fun p => p.2)

/-- The baseline-range filter of `buildBaselineScores`: truthy `startYear`
within `[CONFIG.BASELINE_START_YEAR, CONFIG.BASELINE_END_YEAR]`. -/
def inBaselineRange (a : AnimeData) : Bool :=
  match truthyYear a with
  | some y => decide (CONFIG.BASELINE_START_YEAR ≤ y) && decide (y ≤ CONFIG.BASELINE_END_YEAR)
  | none => false

/-- The return record of `buildBaselineScores`. -/
structure BaselineScores where
  scores : List ℚ
  median : Option ℚ
deriving Repr, DecidableEq

/-- `buildBaselineScores` from `calculator.ts`: collects the scores of the
items in the baseline range, sorts ascending, and computes the median
(`NaN`, i.e. `none`, when the filtered set is empty — the source has no
fallback constant here). -/
def buildBaselineScores (animeList : List AnimeData) : BaselineScores :=
  let sorted := ((animeList.filter inBaselineRange).map (fun a => a.mean)).mergeSort
    (fun a b => decide (a ≤ b))
  { scores := sorted, median := calculateMedian sorted }

/-- The baseline-median expression of `calculateYearStatistics` in
`src/index.ts` (lines 113–115): `baselineScores.length > 0 ?
calculateMedian(baselineScores) : 7.30` — a bare numeric fallback with no
flag and no error path. -/
def baselineMedianOrFallback (baselineScores : List ℚ) : Option ℚ :=
  if 0 < baselineScores.length then calculateMedian baselineScores
  else some (730/100)

/-- The `percentileInYear` computation of the per-item loop in
`calculateAdjustedScores`: real percentile when the year has full stats,
the heuristic estimate when the year is truthy but lacks stats, and the
default `50` when `startYear` is falsy. -/
def percentileInYear (animeList : List AnimeData) (anime : AnimeData) : ℚ :=
  match truthyYear anime with
  | some y =>
    match statsLookup animeList y with
    | some yearData => calculatePercentile yearData.scores anime.mean
    | none => estimatePercentile anime.mean
  | none => 50

/-- The raw mapping to the baseline distribution in the per-item loop:
`getScoreAtPercentile(baseline.scores, percentileInYear)`. -/
def rawAdjustedScore (animeList : List AnimeData) (anime : AnimeData) : Option ℚ :=
  getScoreAtPercentile (buildBaselineScores animeList).scores
    (percentileInYear animeList anime)

/-- The hard-cap step of the per-item loop: at percentile ≥ 99 clamp to
`CONFIG.PERCENTILE_CAPS[100]`, else at ≥ 95 clamp to
`CONFIG.PERCENTILE_CAPS[95]`; otherwise unchanged. -/
def applyCaps (p : ℚ) (score : ℚ) : ℚ :=
  if p ≥ 99 then min score CONFIG.PERCENTILE_CAPS.p100
  else if p ≥ 95 then min score CONFIG.PERCENTILE_CAPS.p95
  else score

/-- The adjusted score after cap application (before rounding) in the
per-item loop of `calculateAdjustedScores`. -/
def cappedAdjustedScore (animeList : List AnimeData) (anime : AnimeData) : Option ℚ :=
  (rawAdjustedScore animeList anime).map (applyCaps (percentileInYear animeList anime))

/-- JS `Math.round`: round half toward positive infinity,
`Math.round(x) = ⌊x + 0.5⌋`. -/
def jsRound (x : ℚ) : Int := Int.floor (x + 1/2)

/-- The 2-decimal rounding of the source: `Math.round(x * 100) / 100`. -/
def roundTo2 (x : ℚ) : ℚ := (jsRound (x * 100) : ℚ) / 100

/-- The body of the per-item loop of `calculateAdjustedScores`: compute the
capped adjusted score and emit the output record with `adjustedRank := 0`
(ranks are assigned after sorting).  When the baseline is empty the source
propagates `undefined`/`NaN`; the rational embedding defaults that (never
exercised) value to `0`, and every theorem about that case carries a
non-empty-baseline hypothesis. -/
def adjustAnime (animeList : List AnimeData) (anime : AnimeData) : AdjustedAnimeData :=
  let adjustedScore := (cappedAdjustedScore animeList anime).getD 0
  { anime with
    adjustedScore := roundTo2 adjustedScore
    adjustedRank := 0
    scoreDifference := roundTo2 (adjustedScore - anime.mean) }

/-- The final sort of `calculateAdjustedScores`:
`results.sort((a, b) => b.adjustedScore - a.adjustedScore)` — a stable sort
descending by adjusted score. -/
def sortByAdjustedDesc (results : List AdjustedAnimeData) : List AdjustedAnimeData :=
  results.mergeSort (fun a b => decide (b.adjustedScore ≤ a.adjustedScore))

/-- The rank-assignment pass of `calculateAdjustedScores`:
`results.forEach((anime, index) => { anime.adjustedRank = index + 1 })`. -/
def assignRanks (results : List AdjustedAnimeData) : List AdjustedAnimeData :=
  results.enum.map (fun p => { p.2 with adjustedRank := p.1 + 1 })

/-- `calculateAdjustedScores` from `calculator.ts`: map every input item
through the per-item loop, sort descending by adjusted score, assign ranks
`index + 1`.  (The source's `console.log` calls are side-effect-free for
the result and are not modelled.) -/
def calculateAdjustedScores (animeList : List AnimeData) : List AdjustedAnimeData :=
  assignRanks (sortByAdjustedDesc (animeList.map (adjustAnime animeList)))

/-- Modelled from the spec (§4.1 `valueAtPercentile`), for comparison with
the source's `getScoreAtPercentile`: clamp the percentile to `[0,100]`,
`position = percentile/100 * (N-1)`, `lower = ⌊position⌋`,
`upper = ⌈position⌉`; return `sortedScores[lower]` when they coincide or
`upper` is out of range, else interpolate
`sortedScores[lower]*(1-w) + sortedScores[upper]*w` with
`w = position - lower`. -/
def specValueAtPercentile (sortedScores : List ℚ) (percentile : ℚ) : Option ℚ :=
  let p := max 0 (min 100 percentile)
  let N : Int := sortedScores.length
  let position : ℚ := p / 100 * ((N : ℚ) - 1)
  let lower : Int := Int.floor position
  let upper : Int := Int.ceil position
  if lower = upper ∨ N ≤ upper then
    if 0 ≤ lower then sortedScores[lower.toNat]? else none
  else
    match sortedScores[lower.toNat]?, sortedScores[upper.toNat]? with
    | some lo, some hi =>
      some (lo * (1 - (position - (lower : ℚ))) + hi * (position - (lower : ℚ)))
    | _, _ => none

/-- Concrete input for the cap analysis: 21 baseline-year (2013) items —
twenty with score 7 and one with score 8.2 — plus one 2020 item with score
9.8 whose estimated percentile is 98. -/
def capExampleList : List AnimeData :=
  (List.range 20).map (fun i => ⟨(i : Int), "B", 7, (i : Int), some 2013, 30000⟩)
    ++ [⟨100, "T", 41/5, 100, some 2013, 30000⟩, ⟨101, "C", 49/5, 101, some 2020, 30000⟩]

/-- The 2020 item of `capExampleList`. -/
def capExampleItem : AnimeData := ⟨101, "C", 49/5, 101, some 2020, 30000⟩

/-- Concrete input showing a score increase: one 2013 item with score 9
(the whole baseline) and one 2020 item with score 8 that maps onto the
baseline value 9. -/
def increaseExampleList : List AnimeData :=
  [⟨1, "A", 9, 1, some 2013, 30000⟩, ⟨2, "C", 8, 2, some 2020, 30000⟩]

/-- Concrete two-item input with a non-empty baseline, for rank/sort
witnesses. -/
def rankExampleList : List AnimeData :=
  [⟨1, "A", 7, 1, some 2013, 30000⟩, ⟨2, "B", 6, 2, some 2013, 30000⟩]

/-- Concrete input with no item in the 2012–2014 baseline range. -/
def emptyBaselineExampleList : List AnimeData :=
  [⟨1, "X", 8, 1, some 2020, 30000⟩]

/-- Concrete ten-item 2013 cohort (plus nothing else), for the cohort
threshold witness. -/
def cohortExampleList : List AnimeData :=
  (List.range 10).map (fun i => ⟨(i : Int), "D", 7, (i : Int), some 2013, 30000⟩)

/-!  Helper lemmas. -/

/-- On a list sorted ascending, the early-exit scan counts exactly the
elements strictly below the query (they form a prefix). -/
theorem countLessScan_eq_countP (v : ℚ) (S : List ℚ) (hs : List.Sorted (· ≤ ·) S) :
    countLessScan v S = S.countP (fun s => decide (s < v)) := by
  induction S with
  | nil => simp [countLessScan]
  | cons a rest ih =>
    rw [List.sorted_cons] at hs
    by_cases hav : a < v
    · have : countLessScan v (a :: rest) = countLessScan v rest + 1 := by
        simp [countLessScan, hav]
      rw [this, ih hs.2, List.countP_cons]
      simp [hav]
    · have h0 : countLessScan v (a :: rest) = 0 := by simp [countLessScan, hav]
      rw [h0]
      symm
      rw [List.countP_eq_zero]
      intro s hsmem
      simp only [decide_eq_true_eq]
      rcases List.mem_cons.mp hsmem with h | h
      · exact h ▸ hav
      · exact fun hsv => hav (lt_of_le_of_lt (hs.1 s h) hsv)

/-- The index actually accessed by `getScoreAtPercentile` for a nonnegative
percentile on a non-empty array: it is in bounds and the result is the
element there. -/
theorem getScoreAtPercentile_eq_get (S : List ℚ) (p : ℚ) (hS : S ≠ []) (h0 : 0 ≤ p) :
    ∃ h : (min (Int.floor (p / 100 * (S.length : ℚ))) ((S.length : Int) - 1)).toNat < S.length,
      getScoreAtPercentile S p =
        some (S.get ⟨(min (Int.floor (p / 100 * (S.length : ℚ))) ((S.length : Int) - 1)).toNat, h⟩) := by
  have hlen : 0 < S.length := List.length_pos.mpr hS
  have hidx0 : (0 : Int) ≤ Int.floor (p / 100 * (S.length : ℚ)) := by
    apply Int.le_floor.mpr
    push_cast
    exact mul_nonneg (div_nonneg h0 (by norm_num)) (Nat.cast_nonneg _)
  have hmin0 : (0 : Int) ≤ min (Int.floor (p / 100 * (S.length : ℚ))) ((S.length : Int) - 1) := by
    apply le_min hidx0
    omega
  have hle : min (Int.floor (p / 100 * (S.length : ℚ))) ((S.length : Int) - 1) ≤ (S.length : Int) - 1 :=
    min_le_right _ _
  have hlt : (min (Int.floor (p / 100 * (S.length : ℚ))) ((S.length : Int) - 1)).toNat < S.length := by
    omega
  refine ⟨hlt, ?_⟩
  show (if 0 ≤ min (Int.floor (p / 100 * (S.length : ℚ))) ((S.length : Int) - 1) then
      S[(min (Int.floor (p / 100 * (S.length : ℚ))) ((S.length : Int) - 1)).toNat]? else none) = _
  rw [if_pos hmin0, List.getElem?_eq_getElem hlt]
  rfl

/-- `percentileInYear` is nonnegative whenever the item's score is. -/
theorem percentileInYear_nonneg (l : List AnimeData) (a : AnimeData) (h : 0 ≤ a.mean) :
    0 ≤ percentileInYear l a := by
  have hest : 0 ≤ estimatePercentile a.mean := by
    unfold estimatePercentile
    split
    · rename_i h1
      have e : 85 + ((a.mean - 85/10) / (15/10)) * 15 = 10 * a.mean := by ring
      rw [e]; linarith
    split
    · rename_i h1 h2
      have e : 70 + ((a.mean - 8) / (5/10)) * 15 = 30 * a.mean - 170 := by ring
      rw [e]; linarith
    split
    · rename_i h1 h2 h3
      have e : 50 + ((a.mean - 75/10) / (5/10)) * 20 = 40 * a.mean - 250 := by ring
      rw [e]; linarith
    split
    · rename_i h1 h2 h3 h4
      have e : 30 + ((a.mean - 7) / (5/10)) * 20 = 40 * a.mean - 250 := by ring
      rw [e]; linarith
    split
    · rename_i h1 h2 h3 h4 h5
      have e : 15 + ((a.mean - 65/10) / (5/10)) * 15 = 30 * a.mean - 180 := by ring
      rw [e]; linarith
    · have e : a.mean / (65/10) * 15 = 30 / 13 * a.mean := by ring
      rw [e]; positivity
  have hcalc : ∀ S : List ℚ, 0 ≤ calculatePercentile S a.mean := by
    intro S
    unfold calculatePercentile
    positivity
  unfold percentileInYear
  cases hty : truthyYear a with
  | none => norm_num
  | some y =>
    cases hsl : statsLookup l y with
    | none => simp only [hsl]; exact hest
    | some yd => simp only [hsl]; exact hcalc yd.scores

/-- The raw index `⌊p/100 · N⌋` computed by `getScoreAtPercentile` is
nonnegative for a nonnegative percentile. -/
theorem floorIndex_nonneg (S : List ℚ) (p : ℚ) (h0 : 0 ≤ p) :
    (0 : Int) ≤ Int.floor (p / 100 * (S.length : ℚ)) := by
  apply Int.le_floor.mpr
  push_cast
  exact mul_nonneg (div_nonneg h0 (by norm_num)) (Nat.cast_nonneg _)

/-- C8: on a non-empty ascending-sorted array, `calculatePercentile`
returns `100 * count(s < value) / N`: the early-exit scan computes the
strict-below count because the array is sorted, boundary ties are excluded,
and a value less-or-equal to every element (e.g. the minimum) yields 0. -/
theorem C8_calculatePercentile_counts_strictly_below (S : List ℚ) (hS : S ≠ [])
    (hsorted : List.Sorted (· ≤ ·) S) (v : ℚ) :
    calculatePercentile S v = 100 * (S.countP (fun s => decide (s < v)) : ℚ) / (S.length : ℚ) ∧
    ((∀ s ∈ S, v ≤ s) → calculatePercentile S v = 0) := by
  constructor
  · unfold calculatePercentile
    rw [countLessScan_eq_countP v S hsorted]
    ring
  · intro hmin
    unfold calculatePercentile
    have hz : countLessScan v S = 0 := by
      cases S with
      | nil => rfl
      | cons a rest =>
        have : ¬ a < v := not_lt.mpr (hmin a (List.mem_cons_self a rest))
        simp [countLessScan, this]
    rw [hz]
    norm_num

/-- Witness for C8 at the concrete sorted array [1,2] and the minimum 1. -/
theorem C8_witness :
    ((([1, 2] : List ℚ) ≠ []) ∧ List.Sorted (· ≤ ·) ([1, 2] : List ℚ)) ∧
    (calculatePercentile [1, 2] 1 =
        100 * ((([1, 2] : List ℚ).countP (fun s => decide (s < 1))) : ℚ) /
          ((([1, 2] : List ℚ).length) : ℚ) ∧
      ((∀ s ∈ ([1, 2] : List ℚ), (1 : ℚ) ≤ s) → calculatePercentile [1, 2] 1 = 0)) :=
  ⟨⟨by with_unfolding_all decide, by with_unfolding_all decide⟩,
    C8_calculatePercentile_counts_strictly_below [1, 2] (by with_unfolding_all decide)
      (by with_unfolding_all decide) 1⟩

/-- C9: `getScoreAtPercentile` is monotone in the percentile on a non-empty
ascending-sorted array: for 0 ≤ p₁ < p₂ ≤ 100 both lookups are defined and
the value at p₁ is at most the value at p₂. -/
theorem C9_getScoreAtPercentile_monotone (S : List ℚ) (hS : S ≠ [])
    (hsorted : List.Sorted (· ≤ ·) S) (p₁ p₂ : ℚ) (h0 : 0 ≤ p₁) (h12 : p₁ < p₂)
    (h100 : p₂ ≤ 100) :
    ∃ v₁ v₂, getScoreAtPercentile S p₁ = some v₁ ∧ getScoreAtPercentile S p₂ = some v₂ ∧
      v₁ ≤ v₂ := by
  obtain ⟨hb₁, he₁⟩ := getScoreAtPercentile_eq_get S p₁ hS h0
  obtain ⟨hb₂, he₂⟩ := getScoreAtPercentile_eq_get S p₂ hS (le_of_lt (lt_of_le_of_lt h0 h12))
  refine ⟨_, _, he₁, he₂, ?_⟩
  apply List.Sorted.rel_get_of_le hsorted
  rw [Fin.mk_le_mk]
  have hf : Int.floor (p₁ / 100 * (S.length : ℚ)) ≤ Int.floor (p₂ / 100 * (S.length : ℚ)) := by
    apply Int.floor_le_floor
    have h12' : p₁ / 100 ≤ p₂ / 100 := by linarith
    exact mul_le_mul_of_nonneg_right h12' (Nat.cast_nonneg _)
  have hm : min (Int.floor (p₁ / 100 * (S.length : ℚ))) ((S.length : Int) - 1)
      ≤ min (Int.floor (p₂ / 100 * (S.length : ℚ))) ((S.length : Int) - 1) :=
    min_le_min hf le_rfl
  omega

/-- Witness for C9 at the array [1,2] with percentiles 10 and 90. -/
theorem C9_witness :
    ((([1, 2] : List ℚ) ≠ []) ∧ List.Sorted (· ≤ ·) ([1, 2] : List ℚ) ∧
      (0 : ℚ) ≤ 10 ∧ (10 : ℚ) < 90 ∧ (90 : ℚ) ≤ 100) ∧
    (∃ v₁ v₂, getScoreAtPercentile [1, 2] 10 = some v₁ ∧
      getScoreAtPercentile [1, 2] 90 = some v₂ ∧ v₁ ≤ v₂) :=
  ⟨⟨by with_unfolding_all decide, by with_unfolding_all decide, by norm_num, by norm_num,
      by norm_num⟩,
    C9_getScoreAtPercentile_monotone [1, 2] (by with_unfolding_all decide)
      (by with_unfolding_all decide) 10 90 (by norm_num) (by norm_num) (by norm_num)⟩

/-- C10: for a non-empty array and a percentile in [0,100] the accessed
index min(⌊p/100·N⌋, N−1) is in bounds and the result is an element of the
array; consequently in `calculateAdjustedScores` every raw adjusted score
before caps is a member of the baseline score array (given a non-empty
baseline and nonnegative item scores) and never exceeds its maximum. -/
theorem C10_raw_score_member_of_baseline :
    (∀ (S : List ℚ) (p : ℚ), S ≠ [] → 0 ≤ p → p ≤ 100 →
      ∃ v, getScoreAtPercentile S p = some v ∧ v ∈ S) ∧
    (∀ l : List AnimeData, (buildBaselineScores l).scores ≠ [] →
      ∀ a ∈ l, 0 ≤ a.mean →
        ∃ v, rawAdjustedScore l a = some v ∧ v ∈ (buildBaselineScores l).scores ∧
          ∀ M : ℚ, ((buildBaselineScores l).scores).maximum = some M → v ≤ M) := by
  have hmem : ∀ (S : List ℚ) (p : ℚ), S ≠ [] → 0 ≤ p →
      ∃ v, getScoreAtPercentile S p = some v ∧ v ∈ S := by
    intro S p hS h0
    obtain ⟨hb, he⟩ := getScoreAtPercentile_eq_get S p hS h0
    exact ⟨_, he, List.get_mem S _ hb⟩
  constructor
  · intro S p hS h0 _
    exact hmem S p hS h0
  · intro l hbase a _ hmean
    obtain ⟨v, hv, hvmem⟩ :=
      hmem _ (percentileInYear l a) hbase (percentileInYear_nonneg l a hmean)
    exact ⟨v, hv, hvmem, fun M hM => List.le_maximum_of_mem hvmem hM⟩

/-- Witness for C10 applying the first part at [1,2], percentile 50. -/
theorem C10_witness :
    ((([1, 2] : List ℚ) ≠ []) ∧ (0 : ℚ) ≤ 50 ∧ (50 : ℚ) ≤ 100) ∧
    (∃ v, getScoreAtPercentile [1, 2] 50 = some v ∧ v ∈ ([1, 2] : List ℚ)) :=
  ⟨⟨by with_unfolding_all decide, by norm_num, by norm_num⟩,
    C10_raw_score_member_of_baseline.1 [1, 2] 50 (by with_unfolding_all decide)
      (by norm_num) (by norm_num)⟩

/-- C2 counterexample: on the sorted array [1,2] at percentile 50 the
source's `getScoreAtPercentile` returns the element 2, while the spec's
clamp-then-interpolate formula yields 1.5 — the code neither clamps the
percentile nor interpolates. -/
theorem C2_counterexample :
    getScoreAtPercentile [1, 2] 50 = some 2 ∧
    specValueAtPercentile [1, 2] 50 = some (3/2) ∧
    getScoreAtPercentile [1, 2] 50 ≠ specValueAtPercentile [1, 2] 50 := by
  with_unfolding_all decide

/-- C2 amended: for a non-empty array and 0 ≤ p ≤ 100,
`getScoreAtPercentile` returns the array element at index
min(⌊p/100 · N⌋, N−1) with no interpolation (and hence no value between
elements is ever produced). -/
theorem C2_amended_index_formula (S : List ℚ) (p : ℚ) (hS : S ≠ []) (h0 : 0 ≤ p)
    (h100 : p ≤ 100) :
    getScoreAtPercentile S p =
      some (S.getD (min (Int.floor (p / 100 * (S.length : ℚ))).toNat (S.length - 1)) 0) := by
  obtain ⟨hb, he⟩ := getScoreAtPercentile_eq_get S p hS h0
  rw [he]
  have hlen : 0 < S.length := List.length_pos.mpr hS
  have hidx0 := floorIndex_nonneg S p h0
  have hnat : (min (Int.floor (p / 100 * (S.length : ℚ))) ((S.length : Int) - 1)).toNat
      = min (Int.floor (p / 100 * (S.length : ℚ))).toNat (S.length - 1) := by
    omega
  congr 1
  rw [List.getD_eq_getElem?_getD, ← hnat, List.getElem?_eq_getElem hb]
  rfl

/-- Witness for C2's amended theorem at [1,2], percentile 50. -/
theorem C2_witness :
    ((([1, 2] : List ℚ) ≠ []) ∧ (0 : ℚ) ≤ 50 ∧ (50 : ℚ) ≤ 100) ∧
    getScoreAtPercentile [1, 2] 50 =
      some (([1, 2] : List ℚ).getD
        (min (Int.floor ((50 : ℚ) / 100 * ((([1, 2] : List ℚ).length) : ℚ))).toNat
          (([1, 2] : List ℚ).length - 1)) 0) :=
  ⟨⟨by with_unfolding_all decide, by norm_num, by norm_num⟩,
    C2_amended_index_formula [1, 2] 50 (by with_unfolding_all decide) (by norm_num)
      (by norm_num)⟩

/-- C5 counterexample: on the empty collection `calculateAdjustedScores`
returns the empty collection normally — it raises no error (its embedding
is a total function with no error channel). -/
theorem C5_counterexample : calculateAdjustedScores [] = [] := by
  with_unfolding_all decide

/-- C5 amended: on an empty input collection `calculateAdjustedScores`
returns an empty output collection (no `EmptyInputError` exists in the
code). -/
theorem C5_amended_empty_returns_empty (l : List AnimeData) (h : l = []) :
    calculateAdjustedScores l = [] := by
  subst h
  with_unfolding_all decide

/-- Witness for C5's amended theorem at the empty list. -/
theorem C5_witness :
    (([] : List AnimeData) = []) ∧ calculateAdjustedScores [] = [] :=
  ⟨rfl, C5_amended_empty_returns_empty [] rfl⟩

/-- Rank assignment writes exactly the positions 1, 2, …, N into
`adjustedRank`, in order. -/
theorem map_adjustedRank_assignRanks (l : List AdjustedAnimeData) :
    (assignRanks l).map (fun x => x.adjustedRank) = List.range' 1 l.length := by
  unfold assignRanks
  rw [List.map_map]
  have h1 : ((fun x : AdjustedAnimeData => x.adjustedRank) ∘
      (fun p : Nat × AdjustedAnimeData => { p.2 with adjustedRank := p.1 + 1 }))
      = (fun i : Nat => 1 + i) ∘ Prod.fst := by
    funext p
    simp [Nat.add_comm]
  rw [h1, ← List.map_map, List.enum_map_fst, ← List.range'_eq_map_range]

/-- Rank assignment does not change the adjusted scores (it only rewrites
the `adjustedRank` field). -/
theorem map_adjustedScore_assignRanks (l : List AdjustedAnimeData) :
    (assignRanks l).map (fun x => x.adjustedScore) = l.map (fun x => x.adjustedScore) := by
  unfold assignRanks
  rw [List.map_map]
  have h1 : ((fun x : AdjustedAnimeData => x.adjustedScore) ∘
      (fun p : Nat × AdjustedAnimeData => { p.2 with adjustedRank := p.1 + 1 }))
      = (fun x : AdjustedAnimeData => x.adjustedScore) ∘ Prod.snd := rfl
  rw [h1, ← List.map_map, List.enum_map_snd]

/-- The comparator-sorted list produced by `sortByAdjustedDesc` is pairwise
descending in adjusted score. -/
theorem sortByAdjustedDesc_sorted (l : List AdjustedAnimeData) :
    List.Pairwise (fun x y : AdjustedAnimeData => y.adjustedScore ≤ x.adjustedScore)
      (sortByAdjustedDesc l) := by
  unfold sortByAdjustedDesc
  have h := @List.sorted_mergeSort AdjustedAnimeData
    (fun a b : AdjustedAnimeData => decide (b.adjustedScore ≤ a.adjustedScore))
    (fun a b c hab hbc => by
      simp only [decide_eq_true_eq] at *
      exact le_trans hbc hab)
    (fun a b => by
      simp only [Bool.or_eq_true, decide_eq_true_eq]
      exact le_total b.adjustedScore a.adjustedScore)
    l
  exact h.imp (fun hab => by simpa using hab)

/-- C6: for a non-empty input, the output of `calculateAdjustedScores`
carries adjusted ranks that are exactly 1, …, N in order (a permutation of
{1,…,N} with no duplicates or gaps), and — whenever the baseline
distribution is non-empty, the case in which the source computes real
numbers rather than `NaN` — the output is sorted descending by adjusted
score. -/
theorem C6_rank_permutation_and_sorted (l : List AnimeData) (hne : l ≠ []) :
    ((calculateAdjustedScores l).map (fun x => x.adjustedRank) = List.range' 1 l.length) ∧
    ((buildBaselineScores l).scores ≠ [] →
      List.Pairwise (fun a b : ℚ => b ≤ a)
        ((calculateAdjustedScores l).map (fun x => x.adjustedScore))) := by
  constructor
  · unfold calculateAdjustedScores
    rw [map_adjustedRank_assignRanks]
    unfold sortByAdjustedDesc
    rw [List.length_mergeSort, List.length_map]
  · intro hbase
    unfold calculateAdjustedScores
    rw [map_adjustedScore_assignRanks]
    have h := sortByAdjustedDesc_sorted (l.map (adjustAnime l))
    rw [List.pairwise_map]
    exact h

/-- Witness for C6 on a concrete two-item input with non-empty baseline. -/
theorem C6_witness :
    (rankExampleList ≠ []) ∧
    ((calculateAdjustedScores rankExampleList).map (fun x => x.adjustedRank) =
      List.range' 1 rankExampleList.length) ∧
    ((buildBaselineScores rankExampleList).scores ≠ [] →
      List.Pairwise (fun a b : ℚ => b ≤ a)
        ((calculateAdjustedScores rankExampleList).map (fun x => x.adjustedScore))) :=
  ⟨by with_unfolding_all decide,
    (C6_rank_permutation_and_sorted rankExampleList (by with_unfolding_all decide)).1,
    (C6_rank_permutation_and_sorted rankExampleList (by with_unfolding_all decide)).2⟩

/-- C1 counterexample: on `increaseExampleList` the default code path
produces an output item whose adjusted score (9) strictly exceeds its
original score (8) — no directional `min(adjusted, original)` clamp
exists, so `adjustedScore ≤ originalScore` fails. -/
theorem C1_counterexample :
    ∃ x ∈ calculateAdjustedScores increaseExampleList, x.mean < x.adjustedScore := by
  with_unfolding_all decide

/-- C1 amended: every output item of `calculateAdjustedScores` comes from
an input item via the per-item loop, and its final adjusted score is the
capped raw score rounded to two decimals — the original score is never
taken as an upper bound. -/
theorem C1_amended_no_directional_policy (l : List AnimeData) (x : AdjustedAnimeData)
    (hx : x ∈ calculateAdjustedScores l) :
    ∃ a ∈ l, x.mean = a.mean ∧
      x.adjustedScore = roundTo2 ((cappedAdjustedScore l a).getD 0) ∧
      x.scoreDifference = roundTo2 ((cappedAdjustedScore l a).getD 0 - a.mean) := by
  unfold calculateAdjustedScores assignRanks at hx
  rw [List.mem_map] at hx
  obtain ⟨⟨i, y⟩, hp, hpx⟩ := hx
  obtain ⟨hi, hy⟩ := List.mem_enum hp
  have hymem : y ∈ sortByAdjustedDesc (l.map (adjustAnime l)) := by
    rw [hy]
    exact List.getElem_mem hi
  have hperm : (sortByAdjustedDesc (l.map (adjustAnime l))).Perm (l.map (adjustAnime l)) :=
    List.mergeSort_perm (l.map (adjustAnime l)) _
  have hymem2 : y ∈ l.map (adjustAnime l) := hperm.mem_iff.mp hymem
  rw [List.mem_map] at hymem2
  obtain ⟨a, hal, hay⟩ := hymem2
  refine ⟨a, hal, ?_, ?_, ?_⟩ <;> rw [← hpx, ← hay] <;> rfl

/-- Witness for C1's amended theorem: the concrete 2020 output item of
`increaseExampleList` (adjusted 9, original 8). -/
theorem C1_witness :
    ((⟨⟨2, "C", 8, 2, some 2020, 30000⟩, 9, 2, 1⟩ : AdjustedAnimeData) ∈
        calculateAdjustedScores increaseExampleList) ∧
    (∃ a ∈ increaseExampleList,
      (⟨⟨2, "C", 8, 2, some 2020, 30000⟩, 9, 2, 1⟩ : AdjustedAnimeData).mean = a.mean ∧
      (⟨⟨2, "C", 8, 2, some 2020, 30000⟩, 9, 2, 1⟩ : AdjustedAnimeData).adjustedScore =
        roundTo2 ((cappedAdjustedScore increaseExampleList a).getD 0) ∧
      (⟨⟨2, "C", 8, 2, some 2020, 30000⟩, 9, 2, 1⟩ : AdjustedAnimeData).scoreDifference =
        roundTo2 ((cappedAdjustedScore increaseExampleList a).getD 0 - a.mean)) := by
  have hout : calculateAdjustedScores increaseExampleList =
      [⟨⟨1, "A", 9, 1, some 2013, 30000⟩, 9, 1, 0⟩,
       ⟨⟨2, "C", 8, 2, some 2020, 30000⟩, 9, 2, 1⟩] := by
    with_unfolding_all rfl
  have hx : (⟨⟨2, "C", 8, 2, some 2020, 30000⟩, 9, 2, 1⟩ : AdjustedAnimeData) ∈
      calculateAdjustedScores increaseExampleList := by
    rw [hout]
    exact List.mem_cons_of_mem _ (List.mem_cons_self _ _)
  exact ⟨hx, C1_amended_no_directional_policy increaseExampleList _ hx⟩

/-- C3 counterexample: in `capExampleList` the 2020 item sits at percentile
98 ∈ [95,99); its adjusted score after caps (before rounding) is 8.2,
strictly above the baseline distribution's own 95th-percentile value 7 —
the caps applied are the fixed `CONFIG.PERCENTILE_CAPS` constants, not the
run's baseline percentile values. -/
theorem C3_counterexample :
    percentileInYear capExampleList capExampleItem = 98 ∧
    cappedAdjustedScore capExampleList capExampleItem = some (41/5) ∧
    getScoreAtPercentile (buildBaselineScores capExampleList).scores 95 = some 7 ∧
    ¬((41 : ℚ)/5 ≤ 7) := by
  with_unfolding_all decide

/-- C3 amended: the caps act as `min(raw, cap)` — they never raise the
value — and bound the capped score by the configured constants:
`CONFIG.PERCENTILE_CAPS[95] = 8.29` for percentile in [95,99) and
`CONFIG.PERCENTILE_CAPS[100] = 8.88` for percentile ≥ 99. -/
theorem C3_amended_caps_are_constants (l : List AnimeData) (a : AnimeData) (r v : ℚ)
    (hr : rawAdjustedScore l a = some r) (hv : cappedAdjustedScore l a = some v) :
    v ≤ r ∧
    (95 ≤ percentileInYear l a → percentileInYear l a < 99 →
      v ≤ CONFIG.PERCENTILE_CAPS.p95) ∧
    (99 ≤ percentileInYear l a → v ≤ CONFIG.PERCENTILE_CAPS.p100) := by
  have hv' : v = applyCaps (percentileInYear l a) r := by
    unfold cappedAdjustedScore at hv
    rw [hr] at hv
    simpa using hv.symm
  subst hv'
  unfold applyCaps
  by_cases h99 : percentileInYear l a ≥ 99
  · rw [if_pos h99]
    exact ⟨min_le_left _ _, fun _ hlt => absurd hlt (not_lt.mpr h99),
      fun _ => min_le_right _ _⟩
  · rw [if_neg h99]
    by_cases h95 : percentileInYear l a ≥ 95
    · rw [if_pos h95]
      exact ⟨min_le_left _ _, fun _ _ => min_le_right _ _, fun h => absurd h h99⟩
    · rw [if_neg h95]
      exact ⟨le_refl r, fun h _ => absurd h h95,
        fun h => absurd (le_trans (by norm_num) h) h95⟩

/-- Witness for C3's amended theorem at the concrete cap example. -/
theorem C3_witness :
    (rawAdjustedScore capExampleList capExampleItem = some (41/5) ∧
      cappedAdjustedScore capExampleList capExampleItem = some (41/5)) ∧
    ((41 : ℚ)/5 ≤ 41/5 ∧
      (95 ≤ percentileInYear capExampleList capExampleItem →
        percentileInYear capExampleList capExampleItem < 99 →
        (41 : ℚ)/5 ≤ CONFIG.PERCENTILE_CAPS.p95) ∧
      (99 ≤ percentileInYear capExampleList capExampleItem →
        (41 : ℚ)/5 ≤ CONFIG.PERCENTILE_CAPS.p100)) :=
  ⟨⟨by with_unfolding_all decide, by with_unfolding_all decide⟩,
    C3_amended_caps_are_constants capExampleList capExampleItem (41/5) (41/5)
      (by with_unfolding_all decide) (by with_unfolding_all decide)⟩

/-- C4 counterexample: with no item in the baseline range,
`buildBaselineScores` returns normally with an empty score array and an
undefined (NaN) median — not the constant 7.30 — while the caller-side
fallback of `index.ts` silently produces the bare value 7.30, which is
indistinguishable from the genuine median of the non-degenerate input
[7.30]: no flag and no distinct error path exists. -/
theorem C4_counterexample :
    buildBaselineScores emptyBaselineExampleList = ⟨[], none⟩ ∧
    (buildBaselineScores emptyBaselineExampleList).median ≠ some (730/100) ∧
    baselineMedianOrFallback [] = some (730/100) ∧
    baselineMedianOrFallback [730/100] = some (730/100) := by
  with_unfolding_all decide

/-- C4 amended: whenever the baseline range matches no item,
`buildBaselineScores` returns an empty score array with an undefined
median and no error, and the `index.ts` baseline-median expression yields
the silent constant 7.30 on the resulting empty score list. -/
theorem C4_amended_silent_fallback (l : List AnimeData)
    (h : ∀ a ∈ l, inBaselineRange a = false) :
    buildBaselineScores l = ⟨[], none⟩ ∧
    baselineMedianOrFallback ((l.filter inBaselineRange).map (fun a => a.mean)) =
      some (730/100) := by
  have hfil : l.filter inBaselineRange = [] := by
    rw [List.filter_eq_nil_iff]
    intro a ha
    rw [h a ha]
    exact Bool.false_ne_true
  constructor
  · unfold buildBaselineScores
    rw [hfil]
    with_unfolding_all decide
  · rw [hfil]
    with_unfolding_all decide

/-- Witness for C4's amended theorem at the concrete off-range input. -/
theorem C4_witness :
    (∀ a ∈ emptyBaselineExampleList, inBaselineRange a = false) ∧
    (buildBaselineScores emptyBaselineExampleList = ⟨[], none⟩ ∧
      baselineMedianOrFallback
        ((emptyBaselineExampleList.filter inBaselineRange).map (fun a => a.mean)) =
        some (730/100)) :=
  ⟨by with_unfolding_all decide,
    C4_amended_silent_fallback emptyBaselineExampleList (by with_unfolding_all decide)⟩

/-- Unfolding `groupLookup` over a cons cell. -/
theorem groupLookup_cons (k : Int) (v : List AnimeData) (tl : List (Int × List AnimeData))
    (y : Int) :
    groupLookup ((k, v) :: tl) y = if k = y then some v else groupLookup tl y := by
  unfold groupLookup
  by_cases h : k = y
  · rw [List.find?_cons_of_pos _ (by simpa using h), if_pos h]
    rfl
  · rw [List.find?_cons_of_neg _ (by simpa using h), if_neg h]

/-- Inserting an item extends exactly the bucket of its own key (content
view). -/
theorem groupLookup_insertAnime_getD (m : List (Int × List AnimeData)) (yi : Int)
    (a : AnimeData) (y : Int) :
    (groupLookup (insertAnime m yi a) y).getD [] =
      if yi = y then (groupLookup m y).getD [] ++ [a] else (groupLookup m y).getD [] := by
  induction m with
  | nil =>
    show (groupLookup [(yi, [a])] y).getD [] = _
    rw [groupLookup_cons]
    by_cases h : yi = y
    · rw [if_pos h, if_pos h]
      rfl
    · rw [if_neg h, if_neg h]
  | cons hd tl ih =>
    obtain ⟨k, v⟩ := hd
    show (groupLookup (if k = yi then (k, v ++ [a]) :: tl else (k, v) :: insertAnime tl yi a) y).getD []
      = _
    by_cases hk : k = yi
    · subst hk
      rw [if_pos rfl, groupLookup_cons, groupLookup_cons]
      by_cases h : k = y
      · rw [if_pos h, if_pos h, if_pos h]
        rfl
      · rw [if_neg h, if_neg h, if_neg h]
    · rw [if_neg hk, groupLookup_cons]
      by_cases h : k = y
      · rw [if_pos h]
        have hyi : ¬ yi = y := fun hc => hk (h ▸ hc ▸ rfl)
        rw [if_neg hyi, groupLookup_cons, if_pos h]
      · rw [if_neg h, ih, groupLookup_cons, if_neg h]

/-- Inserting an item makes exactly the bucket of its own key present
(presence view). -/
theorem groupLookup_insertAnime_isSome (m : List (Int × List AnimeData)) (yi : Int)
    (a : AnimeData) (y : Int) :
    (groupLookup (insertAnime m yi a) y).isSome =
      ((groupLookup m y).isSome || decide (yi = y)) := by
  induction m with
  | nil =>
    show (groupLookup [(yi, [a])] y).isSome = _
    rw [groupLookup_cons]
    by_cases h : yi = y
    · rw [if_pos h]
      simp [groupLookup, h]
    · rw [if_neg h]
      simp [groupLookup, h]
  | cons hd tl ih =>
    obtain ⟨k, v⟩ := hd
    show (groupLookup (if k = yi then (k, v ++ [a]) :: tl else (k, v) :: insertAnime tl yi a) y).isSome
      = _
    by_cases hk : k = yi
    · subst hk
      rw [if_pos rfl, groupLookup_cons, groupLookup_cons]
      by_cases h : k = y
      · rw [if_pos h, if_pos h]
        simp [h]
      · rw [if_neg h, if_neg h]
        simp [h]
    · rw [if_neg hk, groupLookup_cons]
      by_cases h : k = y
      · rw [if_pos h]
        have hyi : ¬ yi = y := fun hc => hk (h ▸ hc ▸ rfl)
        rw [groupLookup_cons, if_pos h]
        simp [hyi]
      · rw [if_neg h, ih, groupLookup_cons, if_neg h]

/-- Content view of the whole grouping loop: the bucket of key `y` after
folding `l` is the starting bucket followed by the items of `l` whose
truthy year is `y`, in input order. -/
theorem groupLookup_animeByYear_getD (l : List AnimeData) (y : Int) :
    ∀ m : List (Int × List AnimeData),
      (groupLookup (l.foldl (fun m a => match truthyYear a with
        | some yi => insertAnime m yi a
        | none => m) m) y).getD [] =
      (groupLookup m y).getD [] ++ l.filter (fun a => truthyYear a == some y) := by
  induction l with
  | nil =>
    intro m
    simp
  | cons a tl ih =>
    intro m
    rw [List.foldl_cons, List.filter_cons]
    cases truthyYear a with
    | none =>
      have hstep : (match (none : Option Int) with
          | some yi => insertAnime m yi a
          | none => m) = m := rfl
      have hbeq : ((none : Option Int) == some y) = false := rfl
      rw [hstep, hbeq, if_neg (by simp)]
      exact ih m
    | some yi =>
      have hstep : (match (some yi : Option Int) with
          | some yi2 => insertAnime m yi2 a
          | none => m) = insertAnime m yi a := rfl
      rw [hstep, ih (insertAnime m yi a), groupLookup_insertAnime_getD]
      by_cases h : yi = y
      · have hbeq : ((some yi : Option Int) == some y) = true := by simp [h]
        rw [hbeq, if_pos rfl, if_pos h, List.append_assoc, List.singleton_append]
      · have hbeq : ((some yi : Option Int) == some y) = false := by simp [h]
        rw [hbeq, if_neg Bool.false_ne_true, if_neg h]

/-- Presence view of the whole grouping loop: the bucket of key `y` exists
after folding `l` iff it existed before or some item of `l` has truthy
year `y`. -/
theorem groupLookup_animeByYear_isSome (l : List AnimeData) (y : Int) :
    ∀ m : List (Int × List AnimeData),
      (groupLookup (l.foldl (fun m a => match truthyYear a with
        | some yi => insertAnime m yi a
        | none => m) m) y).isSome =
      ((groupLookup m y).isSome || l.any (fun a => truthyYear a == some y)) := by
  induction l with
  | nil =>
    intro m
    simp
  | cons a tl ih =>
    intro m
    rw [List.foldl_cons, List.any_cons]
    cases truthyYear a with
    | none =>
      have hstep : (match (none : Option Int) with
          | some yi => insertAnime m yi a
          | none => m) = m := rfl
      have hbeq : ((none : Option Int) == some y) = false := rfl
      rw [hstep, hbeq, ih m]
      simp
    | some yi =>
      have hstep : (match (some yi : Option Int) with
          | some yi2 => insertAnime m yi2 a
          | none => m) = insertAnime m yi a := rfl
      have hbeq : ((some yi : Option Int) == some y) = decide (yi = y) := by
        by_cases h : yi = y <;> simp [h]
      rw [hstep, ih (insertAnime m yi a), groupLookup_insertAnime_isSome, hbeq]
      cases (groupLookup m y).isSome <;> cases hd : decide (yi = y) <;> simp

/-- The grouping map built by `animeByYear` has `y`'s bucket equal to the
filter of the input by truthy year `y`, present exactly when that filter
is non-empty. -/
theorem groupLookup_animeByYear (l : List AnimeData) (y : Int) :
    groupLookup (animeByYear l) y =
      if l.any (fun a => truthyYear a == some y)
      then some (l.filter (fun a => truthyYear a == some y))
      else none := by
  have ha := groupLookup_animeByYear_isSome l y []
  have hb := groupLookup_animeByYear_getD l y []
  rw [show groupLookup ([] : List (Int × List AnimeData)) y = none from rfl] at ha hb
  simp only [Option.isSome_none, Bool.false_or, Option.getD_none, List.nil_append] at ha hb
  have hax : (groupLookup (animeByYear l) y).isSome
      = l.any (fun a => truthyYear a == some y) := ha
  have hbx : (groupLookup (animeByYear l) y).getD []
      = l.filter (fun a => truthyYear a == some y) := hb
  by_cases h : l.any (fun a => truthyYear a == some y)
  · rw [if_pos h]
    rw [h] at hax
    cases hg : groupLookup (animeByYear l) y with
    | none =>
      rw [hg] at hax
      exact absurd hax (by simp)
    | some b =>
      rw [hg] at hbx
      simp only [Option.getD_some] at hbx
      rw [hbx]
  · rw [if_neg h]
    cases hg : groupLookup (animeByYear l) y with
    | none => rfl
    | some b =>
      rw [hg] at hax
      simp only [Option.isSome_some] at hax
      exact absurd hax.symm h

/-- Inserting into the grouping map leaves the key list unchanged when the
key is present and appends it at the end otherwise. -/
theorem keys_insertAnime (m : List (Int × List AnimeData)) (yi : Int) (a : AnimeData) :
    (insertAnime m yi a).map Prod.fst =
      if yi ∈ m.map Prod.fst then m.map Prod.fst else m.map Prod.fst ++ [yi] := by
  induction m with
  | nil => simp [insertAnime]
  | cons hd tl ih =>
    obtain ⟨k, v⟩ := hd
    show ((if k = yi then (k, v ++ [a]) :: tl else (k, v) :: insertAnime tl yi a).map Prod.fst) = _
    by_cases hk : k = yi
    · rw [if_pos hk]
      have hmem : yi ∈ ((k, v) :: tl).map Prod.fst := by
        rw [List.map_cons, hk]
        exact List.mem_cons_self _ _
      rw [if_pos hmem, List.map_cons, List.map_cons]
    · rw [if_neg hk, List.map_cons, List.map_cons, ih]
      by_cases hmem : yi ∈ tl.map Prod.fst
      · rw [if_pos hmem, if_pos (List.mem_cons_of_mem _ hmem)]
      · have hni : yi ∉ (k : Int) :: tl.map Prod.fst := by
          intro hc
          rcases List.mem_cons.mp hc with hc1 | hc2
          · exact hk hc1.symm
          · exact hmem hc2
        rw [if_neg hmem, if_neg hni, List.cons_append]

/-- Insertion preserves distinctness of the grouping map's keys. -/
theorem nodup_keys_insertAnime (m : List (Int × List AnimeData)) (yi : Int) (a : AnimeData)
    (h : (m.map Prod.fst).Nodup) : ((insertAnime m yi a).map Prod.fst).Nodup := by
  rw [keys_insertAnime]
  by_cases hmem : yi ∈ m.map Prod.fst
  · rw [if_pos hmem]
    exact h
  · rw [if_neg hmem]
    exact List.Nodup.append h (List.nodup_singleton yi) (List.disjoint_singleton.mpr hmem)

/-- The grouping map of `animeByYear` has pairwise-distinct keys. -/
theorem nodup_keys_animeByYear (l : List AnimeData) :
    ((animeByYear l).map Prod.fst).Nodup := by
  have h : ∀ m : List (Int × List AnimeData), (m.map Prod.fst).Nodup →
      ((l.foldl (fun m a => match truthyYear a with
        | some yi => insertAnime m yi a
        | none => m) m).map Prod.fst).Nodup := by
    induction l with
    | nil =>
      intro m hm
      exact hm
    | cons a tl ih =>
      intro m hm
      rw [List.foldl_cons]
      cases truthyYear a with
      | none => exact ih m hm
      | some yi => exact ih (insertAnime m yi a) (nodup_keys_insertAnime m yi a hm)
  exact h [] (by simp)

/-- `buildYearStats` lookup, characterized through the grouping map: the
entry for `y` exists exactly when `y`'s bucket exists and has at least 10
members, and then carries the statistics of that bucket. -/
theorem statsLookup_eq (l : List AnimeData) (y : Int) :
    statsLookup l y = (groupLookup (animeByYear l) y).bind
      (fun b => if 10 ≤ b.length then some (mkYearStats y b) else none) := by
  have key : ∀ m : List (Int × List AnimeData), (m.map Prod.fst).Nodup →
      ((m.filterMap (fun p => if 10 ≤ p.2.length then some (p.1, mkYearStats p.1 p.2)
          else none)).find? (fun p => decide (p.1 = y))).map (fun p => p.2) =
        (groupLookup m y).bind
          (fun b => if 10 ≤ b.length then some (mkYearStats y b) else none) := by
    intro m
    induction m with
    | nil =>
      intro _
      rfl
    | cons hd tl ih =>
      intro hnd
      obtain ⟨k, v⟩ := hd
      rw [List.map_cons, List.nodup_cons] at hnd
      rw [groupLookup_cons]
      by_cases hk : k = y
      · subst hk
        rw [if_pos rfl]
        by_cases hlen : 10 ≤ v.length
        · have hsome : (fun p : Int × List AnimeData =>
              if 10 ≤ p.2.length then some (p.1, mkYearStats p.1 p.2) else none) (k, v)
              = some (k, mkYearStats k v) := by simp [hlen]
          rw [@List.filterMap_cons_some _ _ (fun p : Int × List AnimeData =>
              if 10 ≤ p.2.length then some (p.1, mkYearStats p.1 p.2) else none)
              (k, v) tl _ hsome,
            List.find?_cons_of_pos _ (by simp)]
          simp [hlen]
        · have hfnone : (fun p : Int × List AnimeData =>
              if 10 ≤ p.2.length then some (p.1, mkYearStats p.1 p.2) else none) (k, v)
              = none := by simp [hlen]
          rw [@List.filterMap_cons_none _ _ (fun p : Int × List AnimeData =>
              if 10 ≤ p.2.length then some (p.1, mkYearStats p.1 p.2) else none)
              (k, v) tl hfnone]
          have hnone : (tl.filterMap (fun p : Int × List AnimeData => if 10 ≤ p.2.length then
              some (p.1, mkYearStats p.1 p.2) else none)).find?
                (fun p => decide (p.1 = k)) = none := by
            rw [List.find?_eq_none]
            intro q hq
            rw [List.mem_filterMap] at hq
            obtain ⟨p, hp, hfp⟩ := hq
            by_cases hpl : 10 ≤ p.2.length
            · rw [if_pos hpl] at hfp
              cases hfp
              simp only [decide_eq_true_eq]
              intro hcontra
              have hpmem : p.1 ∈ tl.map Prod.fst := List.mem_map_of_mem Prod.fst hp
              rw [hcontra] at hpmem
              exact hnd.1 hpmem
            · rw [if_neg hpl] at hfp
              cases hfp
          rw [hnone]
          simp [hlen]
      · rw [if_neg hk]
        by_cases hlen : 10 ≤ v.length
        · have hsome : (fun p : Int × List AnimeData =>
              if 10 ≤ p.2.length then some (p.1, mkYearStats p.1 p.2) else none) (k, v)
              = some (k, mkYearStats k v) := by simp [hlen]
          rw [@List.filterMap_cons_some _ _ (fun p : Int × List AnimeData =>
              if 10 ≤ p.2.length then some (p.1, mkYearStats p.1 p.2) else none)
              (k, v) tl _ hsome,
            List.find?_cons_of_neg _ (by simp [hk])]
          exact ih hnd.2
        · have hfnone : (fun p : Int × List AnimeData =>
              if 10 ≤ p.2.length then some (p.1, mkYearStats p.1 p.2) else none) (k, v)
              = none := by simp [hlen]
          rw [@List.filterMap_cons_none _ _ (fun p : Int × List AnimeData =>
              if 10 ≤ p.2.length then some (p.1, mkYearStats p.1 p.2) else none)
              (k, v) tl hfnone]
          exact ih hnd.2
  exact key (animeByYear l) (nodup_keys_animeByYear l)

/-- For a non-zero year key, filtering by truthy year agrees with filtering
by the raw `startYear` field (null keys are excluded either way). -/
theorem truthy_filter_eq (l : List AnimeData) (y : Int) (hy : y ≠ 0) :
    l.filter (fun a => truthyYear a == some y) =
      l.filter (fun a => a.startYear == some y) := by
  apply List.filter_congr
  intro a _
  unfold truthyYear
  cases hs : a.startYear with
  | none => rfl
  | some z =>
    by_cases hz : z = 0
    · subst hz
      have h1 : (some (0 : Int) == some y) = false := by
        simp
        intro hc
        exact hy hc.symm
      simp [h1]
    · simp [hz]

/-- C7: `buildYearStats` produces an entry for a (non-null, non-zero)
cohort key `y` iff at least 10 items carry that key; items with a null
cohort key are excluded from grouping.  In particular a 9-item cohort has
no entry and a 10-item cohort has one. -/
theorem C7_cohort_threshold (l : List AnimeData) (y : Int) (hy : y ≠ 0) :
    (statsLookup l y).isSome ↔
      10 ≤ (l.filter (fun a => a.startYear == some y)).length := by
  rw [statsLookup_eq, groupLookup_animeByYear, ← truthy_filter_eq l y hy]
  by_cases hany : l.any (fun a => truthyYear a == some y)
  · rw [if_pos hany]
    by_cases hlen : 10 ≤ (l.filter (fun a => truthyYear a == some y)).length
    · simp [hlen]
    · simp [hlen]
  · rw [if_neg hany]
    have hfil : l.filter (fun a => truthyYear a == some y) = [] := by
      rw [List.filter_eq_nil_iff]
      intro a ha hcontra
      exact hany (List.any_eq_true.mpr ⟨a, ha, hcontra⟩)
    simp [hfil]

/-- Witness for C7 at a concrete ten-item 2013 cohort. -/
theorem C7_witness :
    ((2013 : Int) ≠ 0) ∧
    ((statsLookup cohortExampleList 2013).isSome ↔
      10 ≤ (cohortExampleList.filter (fun a => a.startYear == some 2013)).length) :=
  ⟨by decide, C7_cohort_threshold cohortExampleList 2013 (by decide)⟩
